import Mathlib

/-!
Shallow embedding of the api2go resource dispatch engine (src/api.go) and of
its structured error model (exercised by src/error_test.go).

Conventions of the embedding:
* Go `uint64` arithmetic is modelled on `Nat` with explicit reduction modulo
  `2 ^ 64` where the source can wrap.
* A fallible Go call is modelled by an explicit result type; a Go runtime
  panic (division by zero, indexing an empty slice) is a distinguished
  result constructor.
* External collaborators (the jsonapi document codec, the httputil content
  negotiator, the backend CRUD implementation, the name pluralizer) are
  opaque in the source and appear here as function parameters.
-/

/-- Result of a Go computation: a normal value, a returned non-nil `error`,
or a runtime panic. -/
inductive GoResult (α : Type) where
  | ok (val : α)
  | errResult
  | panicked
deriving DecidableEq

/-- `2 ^ 64`, the modulus of Go `uint64` arithmetic. -/
def U64 : Nat := 2 ^ 64

/-- Go `uint64` addition: wraps modulo `2 ^ 64`. -/
def add64 (a b : Nat) : Nat := (a + b) % U64

/-- Go `uint64` subtraction: wraps modulo `2 ^ 64`. -/
def sub64 (a b : Nat) : Nat := (a % U64 + (U64 - b % U64)) % U64

/-- Model of Go `strconv.ParseUint(s, 10, 64)`: decimal digits only, no sign,
error on the empty string, on any non-digit and on overflow past
`2 ^ 64 - 1`. -/
def parseUint (s : String) : Option Nat :=
  if s.data = [] then none
  else if s.data.all (fun c => c.isDigit) then
    let n := s.data.foldl (fun acc c => acc * 10 + (c.toNat - 48)) 0
    if n < U64 then some n else none
  else none

/-- Model of Go `url.Values` (the request query) as an association list. -/
abbrev Values : Type := List (String × String)

/-- Model of `url.Values.Set`: drop every entry for the key, then record the
single new value (Go replaces the whole value slice of the key). -/
def Values.set (q : Values) (k v : String) : Values :=
  (q.filter (fun kv => !(kv.1 == k))) ++ [(k, v)]

/-- Byte-wise strict order on strings (the keys here are ASCII, where byte
order and code-point order coincide), as Go sorts the encoded query keys. -/
def charListLt : List Char → List Char → Bool
  | [], [] => false
  | [], _ :: _ => true
  | _ :: _, [] => false
  | a :: as, b :: bs =>
    if a.toNat < b.toNat then true
    else if b.toNat < a.toNat then false
    else charListLt as bs

/-- Strict order on query keys. -/
def keyLt (a b : String) : Bool := charListLt a.data b.data

/-- Insertion step of a stable sort of query entries by key. -/
def insertByKey (kv : String × String) :
    List (String × String) → List (String × String)
  | [] => [kv]
  | x :: xs => if keyLt kv.1 x.1 then kv :: x :: xs else x :: insertByKey kv xs

/-- Stable sort of query entries by key, as `url.Values.Encode` iterates the
keys in sorted order. -/
def sortByKey (q : List (String × String)) : List (String × String) :=
  q.foldr insertByKey []

/-- Model of `url.QueryUnescape(params.Encode())` (src/api.go:103 etc.):
entries sorted by key, rendered `k=v` and joined with `&`; escaping followed
by unescaping is the identity on the rendered text. -/
def Values.encode (q : Values) : String :=
  String.intercalate "&" ((sortByKey q).map (fun kv => kv.1 ++ "=" ++ kv.2))

/-- Model of `fmt.Sprintf("%s?%s", requestURL, query)` producing one
pagination link. -/
def fmtLink (requestURL : String) (q : Values) : String :=
  requestURL ++ "?" ++ Values.encode q

/-- The four pagination query parameters (src/api.go:50-52); the empty
string stands for an absent parameter, as in `url.Values.Get`. -/
structure paginationQueryParams where
  number : String
  size : String
  offset : String
  limit : String

/-- Model of `paginationQueryParams.isValid` (src/api.go:66-80). -/
def paginationQueryParams.isValid (p : paginationQueryParams) : Bool :=
  if p.number == "" && p.size == "" && p.offset == "" && p.limit == "" then
    false
  else if p.number != "" && p.size != "" && p.offset == "" && p.limit == "" then
    true
  else if p.number == "" && p.size == "" && p.offset != "" && p.limit != "" then
    true
  else
    false

/-- Model of `paginationQueryParams.getLinks` (src/api.go:82-173).
`requestURL` stands for `baseURL ++ r.URL.Path`, `params` for
`r.URL.Query()`, `count` for the Go `uint` total count (a value below
`2 ^ 64`).  The Go integer division `count / size` panics at run time when
`size` is zero; that panic is the `panicked` result. -/
def paginationQueryParams.getLinks (p : paginationQueryParams)
    (requestURL : String) (params : Values) (count : Nat) :
    GoResult (List (String × String)) :=
  if p.number != "" then
    match parseUint p.number with
    | none => .errResult
    | some number =>
      let step1 : List (String × String) × Values :=
        if p.number != "1" then
          let params1 := params.set "page[number]" "1"
          let r1 := [("first", fmtLink requestURL params1)]
          let params2 := params1.set "page[number]" (toString (sub64 number 1))
          (r1 ++ [("prev", fmtLink requestURL params2)], params2)
        else ([], params)
      match parseUint p.size with
      | none => .errResult
      | some size =>
        if size == 0 then .panicked
        else
          let totalPages0 := count / size
          let totalPages :=
            if count % size != 0 then totalPages0 + 1 else totalPages0
          if number != totalPages then
            let params3 := step1.2.set "page[number]" (toString (add64 number 1))
            let r2 := [("next", fmtLink requestURL params3)]
            let params4 := params3.set "page[number]" (toString totalPages)
            .ok (step1.1 ++ r2 ++ [("last", fmtLink requestURL params4)])
          else
            .ok step1.1
  else
    match parseUint p.offset with
    | none => .errResult
    | some offset =>
      match parseUint p.limit with
      | none => .errResult
      | some limit =>
        let step1 : List (String × String) × Values :=
          if p.offset != "0" then
            let params1 := params.set "page[offset]" "0"
            let r1 := [("first", fmtLink requestURL params1)]
            let prevOffset := if limit > offset then 0 else offset - limit
            let params2 := params1.set "page[offset]" (toString prevOffset)
            (r1 ++ [("prev", fmtLink requestURL params2)], params2)
          else ([], params)
        if add64 offset limit < count then
          let params3 := step1.2.set "page[offset]" (toString (add64 offset limit))
          let r2 := [("next", fmtLink requestURL params3)]
          let params4 := params3.set "page[offset]" (toString (sub64 count limit))
          .ok (step1.1 ++ r2 ++ [("last", fmtLink requestURL params4)])
        else
          .ok step1.1

/-- Lookup of a produced pagination link, `none` on a failed call. -/
def GoResult.lookupLink (r : GoResult (List (String × String))) (k : String) :
    Option String :=
  match r with
  | .ok m => m.lookup k
  | _ => none

/-- Character-list test: the first list begins the second. -/
def chPre : List Char → List Char → Bool
  | [], _ => true
  | _ :: _, [] => false
  | a :: as, b :: bs => a == b && chPre as bs

/-- Character-list test: the first list occurs contiguously in the second. -/
def chSub (n : List Char) : List Char → Bool
  | [] => chPre n []
  | b :: bs => chPre n (b :: bs) || chSub n bs

/-- `strContainsSub needle hay` holds when `needle` occurs contiguously in
`hay`; used to check the claimed wording of error details. -/
def strContainsSub (needle hay : String) : Bool :=
  chSub needle.data hay.data

/-- Modelled from the spec: the structured error value of the error model
(`httpError` of the repository's error.go, a file that is not under src/;
its shape — a wrapped error, a message, a status, an ordered list of nested
errors and a running `errorsCount` — is fixed by spec §3/§4.7 and exercised
by src/error_test.go). -/
inductive httpError where
  | mk (errVal : Option String) (msg : String) (status : Nat)
      (errors : List httpError) (errorsCount : Nat)

/-- The message carried by a structured error. -/
def httpError.msg : httpError → String
  | .mk _ m _ _ _ => m

/-- The HTTP status carried by a structured error. -/
def httpError.status : httpError → Nat
  | .mk _ _ s _ _ => s

/-- The ordered nested errors of a structured error. -/
def httpError.errors : httpError → List httpError
  | .mk _ _ _ e _ => e

/-- The running aggregate count of a structured error. -/
def httpError.errorsCount : httpError → Nat
  | .mk _ _ _ _ c => c

/-- Modelled from the spec, with the initial count pinned by
src/error_test.go: `NewHTTPError` wraps an error value, a message and a
status, with no nested errors; the test requires a fresh error to start at
`errorsCount = 0`, since twenty appends must end at exactly 20. -/
def NewHTTPError (errVal : Option String) (msg : String) (status : Nat) :
    httpError :=
  .mk errVal msg status [] 0

/-- Modelled from the spec, with the append behavior pinned by
src/error_test.go: `AddHTTPError` stores the child as one more immediate
nested error and advances the running count by exactly one — the test's
twenty self-appends must end with `errorsCount = 20 = len(errors)`. -/
def httpError.AddHTTPError : httpError → httpError → httpError
  | .mk e m s errs c, child => .mk e m s (errs ++ [child]) (c + 1)

/-- Modelled from the spec: the alternative semantics the spec's words in
§4.7 assert — a node's count includes itself, so a fresh error counts 1. -/
def NewHTTPErrorSpec (errVal : Option String) (msg : String) (status : Nat) :
    httpError :=
  .mk errVal msg status [] 1

/-- Modelled from the spec: appending per the spec's words in §4.7 advances
the parent's count by the child's whole aggregate count. -/
def httpError.AddHTTPErrorSpec : httpError → httpError → httpError
  | .mk e m s errs c, child => .mk e m s (errs ++ [child]) (c + child.errorsCount)

/-- The loop of src/error_test.go:14-16: `n` times
`httpErr.AddHTTPError(httpErr)`, the argument being a copy of the value at
the time of the call. -/
def selfAppendLoop (add : httpError → httpError → httpError) :
    Nat → httpError → httpError
  | 0, e => e
  | n + 1, e => selfAppendLoop add n (add e e)

/-- A three-node structured error subtree with aggregate count 2 under the
test-conforming semantics. -/
def c1subtree : httpError :=
  ((NewHTTPError (some "hi") "hi" 0).AddHTTPError
      (NewHTTPError (some "hi") "hi" 0)).AddHTTPError
    (NewHTTPError (some "hi") "hi" 0)

/-- A decoded JSON-like value, the shape of an unmarshaled request body
(Go `interface{}` holding `map[string]interface{}`, arrays, strings...). -/
inductive JSONVal where
  | null
  | boolean (b : Bool)
  | num (n : Int)
  | str (s : String)
  | arr (xs : List JSONVal)
  | obj (fields : List (String × JSONVal))

/-- The decoded top-level document, a Go `map[string]interface{}`. -/
abbrev Ctx : Type := List (String × JSONVal)

/-- The backend of a registered resource: the four mandatory CRUD operations
plus the optional capabilities, `none` when the backend does not implement
the optional interface (the Go type assertion of src/api.go:454/472 fails).
The opaque per-request context passed to every operation is omitted. -/
structure Backend (α : Type) where
  findOne : String → Except String α
  create : α → Except String String
  update : α → Except String Unit
  delete : String → Except String Unit
  findAll : Option (Unit → Except String (List α))
  paginatedFindAll : Option (Unit → Except String (List α × Nat))

/-- A handler failure: a structured error built by `NewHTTPError`, or a
plain Go error (which the dispatcher later reports with status 500). -/
inductive HandlerFailure where
  | httpErr (e : httpError)
  | plainErr (msg : String)

/-- The outcome a handler produces: a successful response value, a returned
error, or a runtime panic. -/
inductive HandlerOutcome (ρ : Type) where
  | success (val : ρ)
  | failure (e : HandlerFailure)
  | panicked

/-- Result of the index handler: on success, the status, the fetched
objects and the pagination links when paginated; the two flags record which
optional backend fetch was invoked. -/
structure IndexResult (α : Type) where
  response : HandlerOutcome (Nat × List α × Option (List (String × String)))
  calledPaginated : Bool
  calledFindAll : Bool

/-- Model of `resource.handleIndex` (src/api.go:451-483).  `respondWith` and
`respondWithPagination` are modelled as producing the status and payload;
the marshal step belongs to the opaque document codec. -/
def handleIndex {α : Type} (res : Backend α) (p : paginationQueryParams)
    (requestURL : String) (params : Values) : IndexResult α :=
  if p.isValid then
    match res.paginatedFindAll with
    | none =>
      ⟨.failure (.httpErr (NewHTTPError none
        "Resource does not implement the PaginatedFindAll interface" 404)),
        false, false⟩
    | some source =>
      match source () with
      | .error e => ⟨.failure (.plainErr e), true, false⟩
      | .ok (objs, count) =>
        match p.getLinks requestURL params count with
        | .errResult =>
          ⟨.failure (.plainErr "pagination parse error"), true, false⟩
        | .panicked => ⟨.panicked, true, false⟩
        | .ok paginationLinks =>
          ⟨.success (200, objs, some paginationLinks), true, false⟩
  else
    match res.findAll with
    | none =>
      ⟨.failure (.httpErr (NewHTTPError none
        "Resource does not implement the FindAll interface" 404)),
        false, false⟩
    | some source =>
      match source () with
      | .error e => ⟨.failure (.plainErr e), false, true⟩
      | .ok objs => ⟨.success (200, objs, none), false, true⟩

/-- Result of the update handler: the response (on success status 204 and no
body) and the object the backend update was invoked with, `none` when update
was never called. -/
structure UpdateResult (α : Type) where
  response : HandlerOutcome (Nat × Option α)
  updateCalledWith : Option α

/-- Model of `resource.handleUpdate` (src/api.go:636-705).  The opaque
codec call `jsonapi.UnmarshalInto(ctx, structType, &updatingObjs)` is the
parameter `unmarshalInto`, seeded as in the source with the singleton slice
holding the object fetched by id; `body` is the outcome of
`unmarshalRequest`. -/
def handleUpdate {α : Type} (res : Backend α)
    (unmarshalInto : Ctx → List α → Except String (List α))
    (id : String) (body : Except String Ctx) : UpdateResult α :=
  match res.findOne id with
  | .error e => ⟨.failure (.plainErr e), none⟩
  | .ok obj =>
    match body with
    | .error e => ⟨.failure (.plainErr e), none⟩
    | .ok ctx =>
      match ctx.lookup "data" with
      | none =>
        ⟨.failure (.httpErr (NewHTTPError (some "Forbidden")
          "missing mandatory data key." 403)), none⟩
      | some data =>
        match data with
        | .obj check =>
          if (check.lookup "id").isNone then
            ⟨.failure (.httpErr (NewHTTPError (some "Forbidden")
              "missing mandatory id key." 403)), none⟩
          else if (check.lookup "type").isNone then
            ⟨.failure (.httpErr (NewHTTPError (some "Forbidden")
              "missing mandatory type key." 403)), none⟩
          else
            match unmarshalInto ctx [obj] with
            | .error e => ⟨.failure (.plainErr e), none⟩
            | .ok updatingObjs =>
              match updatingObjs with
              | [updatingObj] =>
                match res.update updatingObj with
                | .error e => ⟨.failure (.plainErr e), some updatingObj⟩
                | .ok _ => ⟨.success (204, none), some updatingObj⟩
              | _ => ⟨.failure (.plainErr "expected one object"), none⟩
        | _ =>
          ⟨.failure (.httpErr (NewHTTPError (some "Forbidden")
            "data must contain an object." 403)), none⟩

/-- Result of the create handler: the response (on success status 201 and
the re-fetched object as body), the `Location` header if set, and the object
backend create was invoked with, `none` when create was never called. -/
structure CreateResult (α : Type) where
  response : HandlerOutcome (Nat × Option α)
  location : Option String
  createCalledWith : Option α

/-- Model of `resource.handleCreate` (src/api.go:599-634).  The codec call
`jsonapi.UnmarshalInto(ctx, structType, &newObjs)` is the parameter
`unmarshalInto`, seeded as in the source with the empty slice; `pre` is the
API's route prefix (with surrounding slashes) and `resName` the derived
resource name. -/
def handleCreate {α : Type} (res : Backend α)
    (unmarshalInto : Ctx → List α → Except String (List α))
    (pre resName : String) (body : Except String Ctx) : CreateResult α :=
  match body with
  | .error e => ⟨.failure (.plainErr e), none, none⟩
  | .ok ctx =>
    match unmarshalInto ctx [] with
    | .error e => ⟨.failure (.plainErr e), none, none⟩
    | .ok newObjs =>
      match newObjs with
      | [newObj] =>
        match res.create newObj with
        | .error e => ⟨.failure (.plainErr e), none, some newObj⟩
        | .ok newId =>
          match res.findOne newId with
          | .error e =>
            ⟨.failure (.plainErr e), some (pre ++ resName ++ "/" ++ newId),
              some newObj⟩
          | .ok obj =>
            ⟨.success (201, some obj), some (pre ++ resName ++ "/" ++ newId),
              some newObj⟩
      | _ => ⟨.failure (.plainErr "expected one object in POST"), none, none⟩

/-- A backend implementing only the four mandatory operations (the scenario
of spec §8: no bulk or paginated fetch). -/
def crudOnlyBackend : Backend Unit :=
  ⟨fun _ => .error "not found", fun _ => .error "no create",
   fun _ => .error "no update", fun _ => .error "no delete", none, none⟩

/-- A bulk fetch returning one object. -/
def listFindAll : Unit → Except String (List Unit) := fun _ => .ok [()]

/-- A backend implementing the mandatory operations plus `FindAll`. -/
def listBackend : Backend Unit :=
  ⟨fun _ => .ok (), fun _ => .ok "9", fun _ => .ok (),
   fun _ => .ok (), some listFindAll, none⟩

/-- A backend over `Nat` objects with all mandatory operations succeeding:
`findOne` yields 7, `create` yields the id "9". -/
def natBackend : Backend Nat :=
  ⟨fun _ => .ok 7, fun _ => .ok "9", fun _ => .ok (),
   fun _ => .ok (), none, none⟩

/-- A document codec for update: merges by bumping every seed object. -/
def mergeCodec : Ctx → List Nat → Except String (List Nat) :=
  fun _ seed => .ok (seed.map (fun x => x + 1))

/-- A document codec for create: decodes the body into one new object. -/
def singletonCodec : Ctx → List Nat → Except String (List Nat) :=
  fun _ seed => .ok (seed ++ [5])

/-- A well-formed update document: `data` is an object with `id` and
`type`. -/
def goodCtx : Ctx :=
  [("data", .obj [("id", .str "1"), ("type", .str "posts")])]

/-- An update document whose `data` object lacks the `id` key. -/
def noIdCtx : Ctx :=
  [("data", .obj [("type", .str "posts")])]

/-- Static relationship metadata (`jsonapi.Reference`): the relation's
field name and the related resource's canonical type name. -/
structure Reference where
  name : String
  typ : String
deriving DecidableEq

/-- The capability surface of a registered prototype: its bare type name,
the declared relationships (`some` exactly when the prototype implements
`jsonapi.MarshalReferences`), and whether the pointer prototype implements
`jsonapi.EditToManyRelations`. -/
structure Prototype where
  typeName : String
  references : Option (List Reference)
  editToMany : Bool

/-- An HTTP route of the router table: method and path pattern. -/
structure Route where
  method : String
  path : String
deriving DecidableEq

/-- Model of the route table built by `api.addResource` (src/api.go:301-430).
The external name helpers `jsonapi.Pluralize` and `jsonapi.Jsonify` are
opaque parameters; `pre` is the API prefix with surrounding slashes. -/
def addResourceRoutes (pluralize jsonify : String → String) (pre : String)
    (proto : Prototype) : List Route :=
  let name := jsonify (pluralize proto.typeName)
  [⟨"OPTIONS", pre ++ name⟩, ⟨"OPTIONS", pre ++ name ++ "/:id"⟩,
   ⟨"GET", pre ++ name⟩, ⟨"GET", pre ++ name ++ "/:id"⟩]
  ++ (match proto.references with
      | some relations =>
        relations.flatMap (fun relation =>
          [⟨"GET", pre ++ name ++ "/:id/relationships/" ++ relation.name⟩,
           ⟨"GET", pre ++ name ++ "/:id/" ++ relation.name⟩,
           ⟨"PATCH", pre ++ name ++ "/:id/relationships/" ++ relation.name⟩]
          ++ (if proto.editToMany
                && (relation.name == pluralize relation.name) then
              [⟨"POST", pre ++ name ++ "/:id/relationships/" ++ relation.name⟩,
               ⟨"DELETE",
                 pre ++ name ++ "/:id/relationships/" ++ relation.name⟩]
            else []))
      | none => [])
  ++ [⟨"POST", pre ++ name⟩, ⟨"DELETE", pre ++ name ++ "/:id"⟩,
      ⟨"PATCH", pre ++ name ++ "/:id"⟩]

/-- A stand-in pluralizer: sends "author" to "authors" and fixes every
other name. -/
def samplePluralize (s : String) : String :=
  if s == "author" then "authors" else s

/-- The identity name mangler, a stand-in for `jsonapi.Jsonify`. -/
def idName (s : String) : String := s

/-- A to-many-editable prototype declaring a singular-named relationship. -/
def authorProto : Prototype :=
  ⟨"Post", some [⟨"author", "users"⟩], true⟩

/-- A to-many-editable prototype declaring a plural-named relationship. -/
def commentsProto : Prototype :=
  ⟨"Post", some [⟨"comments", "comments"⟩], true⟩

/-- The header set of a request, each header with its value list. -/
abbrev Headers : Type := List (String × List String)

/-- Presence-and-value lookup in the header map. -/
def lookupHeader : Headers → String → Option (List String)
  | [], _ => none
  | (k, vs) :: rest, key =>
    if k == key then some vs else lookupHeader rest key

/-- A content marshaler value: the built-in JSON marshaler or a custom
one. -/
inductive Marshaler where
  | jsonMarshaler
  | custom (tag : Nat)
deriving DecidableEq

/-- Model of `selectContentMarshaler` (src/api.go:925-945).  `negotiate`
stands for `httputil.NegotiateContentType r`, taking the offered content
types and the default type; the marshaler map is an association list whose
failed lookup models the nil Go interface; indexing `contentTypes[0]` on an
empty header value slice would be a Go runtime panic. -/
def selectContentMarshaler (negotiate : List String → String → String)
    (headers : Headers) (marshalers : List (String × Marshaler)) :
    GoResult (Marshaler × String) :=
  let step : GoResult (Option Marshaler × String) :=
    if (lookupHeader headers "Accept").isSome then
      let contentTypes := marshalers.map (fun kv => kv.1)
      let contentType := negotiate contentTypes "application/vnd.api+json"
      .ok (marshalers.lookup contentType, contentType)
    else
      match lookupHeader headers "Content-Type" with
      | some contentTypes =>
        match contentTypes with
        | [] => .panicked
        | ct :: _ => .ok (marshalers.lookup ct, ct)
      | none => .ok (none, "")
  match step with
  | .panicked => .panicked
  | .errResult => .errResult
  | .ok (m, contentType) =>
    match m with
    | none => .ok (.jsonMarshaler, "application/vnd.api+json")
    | some found => .ok (found, contentType)

/-- Marshaler selection as claim C9 words it: with an `Accept` header,
negotiate among the configured types with the JSON:API MIME type as default;
else with a `Content-Type` header, use its first value as the lookup key;
whenever no marshaler is resolved, the built-in JSON marshaler bound to
`application/vnd.api+json`. -/
def selectContentMarshalerSpec (negotiate : List String → String → String)
    (headers : Headers) (marshalers : List (String × Marshaler)) :
    Marshaler × String :=
  if (lookupHeader headers "Accept").isSome then
    let ct := negotiate (marshalers.map (fun kv => kv.1))
      "application/vnd.api+json"
    match marshalers.lookup ct with
    | some m => (m, ct)
    | none => (.jsonMarshaler, "application/vnd.api+json")
  else
    match lookupHeader headers "Content-Type" with
    | some (ct :: _) =>
      match marshalers.lookup ct with
      | some m => (m, ct)
      | none => (.jsonMarshaler, "application/vnd.api+json")
    | _ => (.jsonMarshaler, "application/vnd.api+json")

/-- A negotiation function that always yields the offered default. -/
def defaultNegotiate : List String → String → String := fun _ d => d

/-- Claim C5: `isValid` is true exactly for the two complete pagination
shapes — number and size both set with offset and limit empty, or offset and
limit both set with number and size empty; in particular it rejects `number`
alone and all four parameters set. -/
theorem isValid_iff_complete_shape (p : paginationQueryParams) :
    (p.isValid = true ↔
      ((p.number ≠ "" ∧ p.size ≠ "" ∧ p.offset = "" ∧ p.limit = "") ∨
       (p.number = "" ∧ p.size = "" ∧ p.offset ≠ "" ∧ p.limit ≠ ""))) ∧
    paginationQueryParams.isValid ⟨"1", "", "", ""⟩ = false ∧
    paginationQueryParams.isValid ⟨"1", "2", "3", "4"⟩ = false := by
  refine ⟨?_, by decide, by decide⟩
  simp only [paginationQueryParams.isValid]
  split_ifs with h1 h2 h3 <;>
    simp_all [Bool.and_eq_true, beq_iff_eq, bne_iff_ne]

/-- Overwriting the same query key twice keeps only the last value. -/
theorem Values.set_set (q : Values) (k a b : String) :
    (q.set k a).set k b = q.set k b := by
  simp [Values.set, List.filter_append, List.filter_filter]

/-- The page count computed by `getLinks` (floor quotient plus one when a
remainder is left) is the ceiling of `count / s`. -/
theorem ceilDiv_eq (c s : Nat) (hs : 1 ≤ s) :
    (if c % s != 0 then c / s + 1 else c / s) = (c + s - 1) / s := by
  by_cases h0 : c % s = 0
  · simp only [h0, bne_self_eq_false, if_false]
    obtain ⟨k, hk⟩ := Nat.dvd_of_mod_eq_zero h0
    subst hk
    rw [Nat.mul_div_cancel_left _ (by omega : 0 < s)]
    have h1 : s * k + s - 1 = s * k + (s - 1) := by omega
    rw [h1, Nat.mul_add_div (by omega : 0 < s),
      Nat.div_eq_of_lt (by omega : s - 1 < s)]
    simp
  · have hne : (c % s != 0) = true := by simp [h0]
    simp only [hne, if_true]
    have hd := Nat.div_add_mod c s
    have hmlt := Nat.mod_lt c (by omega : 0 < s)
    have h1 : c + s - 1 = s * (c / s) + (c % s - 1 + s) := by omega
    rw [h1, Nat.mul_add_div (by omega : 0 < s),
      Nat.add_div_right _ (by omega : 0 < s),
      Nat.div_eq_of_lt (by omega : c % s - 1 < s)]

/-- A Go function that returns normally on both branches of a conditional
never panics. -/
theorem ite_ok_ne_panicked {α : Type} (c : Prop) [Decidable c] (a b : α) :
    (if c then GoResult.ok a else GoResult.ok b) ≠ GoResult.panicked := by
  split <;> simp

/-- Claim C10: `isValid` accepts the number/size shape with `page[size]=0`;
for that input the `totalPages` division in `getLinks` is an unguarded
division by zero (a Go runtime panic), for every total count; and the
division is safe whenever `page[size]` parses to an integer at least one
(the offset/limit branch performs no division at all). -/
theorem getLinks_size_zero_div :
    (paginationQueryParams.isValid ⟨"1", "0", "", ""⟩ = true) ∧
    (∀ url q count,
      paginationQueryParams.getLinks ⟨"1", "0", "", ""⟩ url q count = .panicked) ∧
    (∀ p url q count s, p.number ≠ "" → parseUint p.size = some s → 1 ≤ s →
      paginationQueryParams.getLinks p url q count ≠ .panicked) ∧
    (∀ p url q count, p.number = "" →
      paginationQueryParams.getLinks p url q count ≠ .panicked) := by
  refine ⟨by decide, fun url q count => rfl, ?_, ?_⟩
  · intro p url q count s hne hs hs1
    have hbne : (p.number != "") = true := by simp [hne]
    simp only [paginationQueryParams.getLinks, hbne, if_true]
    cases hpn : parseUint p.number with
    | none => simp
    | some n =>
      rw [hs]
      have hs0 : (s == 0) = false := by simp; omega
      simp only [hs0, if_true, if_false, Bool.false_eq_true]
      split_ifs <;> simp
  · intro p url q count hne
    have hbne : (p.number != "") = false := by simp [hne]
    simp only [paginationQueryParams.getLinks, hbne, Bool.false_eq_true, if_false]
    cases hpo : parseUint p.offset with
    | none => simp
    | some o =>
      cases hpl : parseUint p.limit with
      | none => simp
      | some l =>
        split_ifs <;> exact ite_ok_ne_panicked _ _ _

/-- Claim C3 (amended): for every valid number/size pagination request with
parsed page `n`, parsed size `s ≥ 1` and total `count`, the `first`/`prev`
links are present exactly when the `page[number]` parameter string differs
from `"1"` (for a canonically written parameter this is `n ≠ 1`, but e.g.
`"01"` parses to 1 and still produces the links); `first` points at page 1
and `prev` at page `n - 1` in 64-bit arithmetic; the `next`/`last` links are
present exactly when `n ≠ totalPages` with `totalPages = ⌈count / s⌉`;
`next` points at page `n + 1` in 64-bit arithmetic and `last` at
`totalPages`. -/
theorem getLinks_number_size_links (p : paginationQueryParams) (url : String)
    (q : Values) (count n s : Nat)
    (hnum : p.number ≠ "") (hn : parseUint p.number = some n)
    (hs : parseUint p.size = some s) (hs1 : 1 ≤ s) :
    ∃ m, p.getLinks url q count = .ok m ∧
      ((p.number = "1" → m.lookup "first" = none ∧ m.lookup "prev" = none) ∧
       (p.number ≠ "1" →
         m.lookup "first" = some (fmtLink url (Values.set q "page[number]" "1")) ∧
         m.lookup "prev" =
           some (fmtLink url (Values.set q "page[number]" (toString (sub64 n 1))))) ∧
       (n = (count + s - 1) / s →
         m.lookup "next" = none ∧ m.lookup "last" = none) ∧
       (n ≠ (count + s - 1) / s →
         m.lookup "next" =
           some (fmtLink url (Values.set q "page[number]" (toString (add64 n 1)))) ∧
         m.lookup "last" =
           some (fmtLink url (Values.set q "page[number]"
             (toString ((count + s - 1) / s)))))) := by
  have hceil := ceilDiv_eq count s hs1
  have hbne : (p.number != "") = true := by simp [hnum]
  have hs0 : (s == 0) = false := by simp; omega
  simp only [paginationQueryParams.getLinks, hbne, if_true, hn, hs, hs0,
    Bool.false_eq_true, if_false]
  rw [hceil]
  by_cases hone : p.number = "1"
  · have hb1 : (p.number != "1") = false := by simp [hone]
    simp only [hb1, Bool.false_eq_true, if_false]
    by_cases hnt : n = (count + s - 1) / s
    · have hb2 : (n != (count + s - 1) / s) = false := by simp [hnt]
      simp only [hb2, Bool.false_eq_true, if_false]
      exact ⟨[], rfl, fun _ => ⟨rfl, rfl⟩, fun h => absurd hone h,
        fun _ => ⟨rfl, rfl⟩, fun h => absurd hnt h⟩
    · have hb2 : (n != (count + s - 1) / s) = true := by simp [hnt]
      simp only [hb2, if_true]
      refine ⟨_, rfl, fun _ => ⟨rfl, rfl⟩, fun h => absurd hone h,
        fun h => absurd h hnt, fun _ => ⟨?_, ?_⟩⟩
      · simp [List.lookup]
      · simp [List.lookup, Values.set_set]
  · have hb1 : (p.number != "1") = true := by simp [hone]
    simp only [hb1, if_true]
    by_cases hnt : n = (count + s - 1) / s
    · have hb2 : (n != (count + s - 1) / s) = false := by simp [hnt]
      simp only [hb2, Bool.false_eq_true, if_false]
      refine ⟨_, rfl, fun h => absurd h hone, fun _ => ⟨?_, ?_⟩,
        fun _ => ⟨?_, ?_⟩, fun h => absurd hnt h⟩
      · simp [List.lookup]
      · simp [List.lookup, Values.set_set]
      · simp [List.lookup]
      · simp [List.lookup]
    · have hb2 : (n != (count + s - 1) / s) = true := by simp [hnt]
      simp only [hb2, if_true]
      refine ⟨_, rfl, fun h => absurd h hone, fun _ => ⟨?_, ?_⟩,
        fun h => absurd h hnt, fun _ => ⟨?_, ?_⟩⟩
      · simp [List.lookup]
      · simp [List.lookup, Values.set_set]
      · simp [List.lookup, Values.set_set]
      · simp [List.lookup, Values.set_set]

/-- Claim C4 (amended): for every valid offset/limit pagination request with
parsed offset `o`, parsed limit `l` and total `count`, the `first`/`prev`
links are present exactly when the `page[offset]` parameter string differs
from `"0"` (for a canonically written parameter this is `o ≠ 0`, but e.g.
`"00"` parses to 0 and still produces the links); `first` is at offset 0 and
`prev` at offset `max(0, o - l)`; the `next`/`last` links are present
exactly when `o + l < count` in 64-bit arithmetic, with `next` at offset
`o + l` and `last` at offset `count - l` in 64-bit arithmetic. -/
theorem getLinks_offset_limit_links (p : paginationQueryParams) (url : String)
    (q : Values) (count o l : Nat)
    (hnum : p.number = "") (ho : parseUint p.offset = some o)
    (hl : parseUint p.limit = some l) :
    ∃ m, p.getLinks url q count = .ok m ∧
      ((p.offset = "0" → m.lookup "first" = none ∧ m.lookup "prev" = none) ∧
       (p.offset ≠ "0" →
         m.lookup "first" = some (fmtLink url (Values.set q "page[offset]" "0")) ∧
         m.lookup "prev" =
           some (fmtLink url (Values.set q "page[offset]" (toString (o - l))))) ∧
       (¬ add64 o l < count →
         m.lookup "next" = none ∧ m.lookup "last" = none) ∧
       (add64 o l < count →
         m.lookup "next" =
           some (fmtLink url (Values.set q "page[offset]" (toString (add64 o l)))) ∧
         m.lookup "last" =
           some (fmtLink url (Values.set q "page[offset]" (toString (sub64 count l)))))) := by
  have hbne : (p.number != "") = false := by simp [hnum]
  have hprev : (if o < l then 0 else o - l) = o - l := by split <;> omega
  simp only [paginationQueryParams.getLinks, hbne, Bool.false_eq_true, if_false,
    ho, hl, gt_iff_lt, hprev]
  by_cases hzero : p.offset = "0"
  · have hb1 : (p.offset != "0") = false := by simp [hzero]
    simp only [hb1, Bool.false_eq_true, if_false]
    by_cases hlt : add64 o l < count
    · simp only [if_pos hlt]
      refine ⟨_, rfl, fun _ => ⟨rfl, rfl⟩, fun h => absurd hzero h,
        fun h => absurd hlt h, fun _ => ⟨?_, ?_⟩⟩
      · simp [List.lookup]
      · simp [List.lookup, Values.set_set]
    · simp only [if_neg hlt]
      exact ⟨[], rfl, fun _ => ⟨rfl, rfl⟩, fun h => absurd hzero h,
        fun _ => ⟨rfl, rfl⟩, fun h => absurd h hlt⟩
  · have hb1 : (p.offset != "0") = true := by simp [hzero]
    simp only [hb1, if_true]
    by_cases hlt : add64 o l < count
    · simp only [if_pos hlt]
      refine ⟨_, rfl, fun h => absurd h hzero, fun _ => ⟨?_, ?_⟩,
        fun h => absurd hlt h, fun _ => ⟨?_, ?_⟩⟩
      · simp [List.lookup]
      · simp [List.lookup, Values.set_set]
      · simp [List.lookup, Values.set_set]
      · simp [List.lookup, Values.set_set]
    · simp only [if_neg hlt]
      refine ⟨_, rfl, fun h => absurd h hzero, fun _ => ⟨?_, ?_⟩,
        fun _ => ⟨?_, ?_⟩, fun h => absurd h hlt⟩
      · simp [List.lookup]
      · simp [List.lookup, Values.set_set]
      · simp [List.lookup]
      · simp [List.lookup]

/-- Claim C3 counterexample: the request with `page[number]="01"`,
`page[size]="1"` is valid and its current page parses to `n = 1`, yet
`getLinks` emits the `first` and `prev` links, because the source compares
the parameter string against `"1"` (src/api.go:101), not the parsed
number — contradicting "present exactly when n != 1". -/
theorem getLinks_number_size_counterexample :
    paginationQueryParams.isValid ⟨"01", "1", "", ""⟩ = true ∧
    parseUint "01" = some 1 ∧
    ((paginationQueryParams.getLinks ⟨"01", "1", "", ""⟩ "/posts"
        [("page[number]", "01"), ("page[size]", "1")] 1).lookupLink "first").isSome
      = true ∧
    ((paginationQueryParams.getLinks ⟨"01", "1", "", ""⟩ "/posts"
        [("page[number]", "01"), ("page[size]", "1")] 1).lookupLink "prev").isSome
      = true := by
  decide

/-- Claim C4 counterexample: the request with `page[offset]="00"`,
`page[limit]="1"` is valid and its offset parses to `o = 0`, yet `getLinks`
emits the `first` and `prev` links, because the source compares the
parameter string against `"0"` (src/api.go:144), not the parsed offset —
contradicting "present exactly when o != 0". -/
theorem getLinks_offset_limit_counterexample :
    paginationQueryParams.isValid ⟨"", "", "00", "1"⟩ = true ∧
    parseUint "00" = some 0 ∧
    ((paginationQueryParams.getLinks ⟨"", "", "00", "1"⟩ "/posts"
        [("page[limit]", "1"), ("page[offset]", "00")] 0).lookupLink "first").isSome
      = true ∧
    ((paginationQueryParams.getLinks ⟨"", "", "00", "1"⟩ "/posts"
        [("page[limit]", "1"), ("page[offset]", "00")] 0).lookupLink "prev").isSome
      = true := by
  decide

/-- Witness for claim C10's theorem at concrete inputs. -/
theorem getLinks_size_zero_div_witness :
    paginationQueryParams.getLinks ⟨"2", "3", "", ""⟩ "u" [] 7 ≠ .panicked ∧
    paginationQueryParams.getLinks ⟨"", "", "4", "2"⟩ "u" [] 7 ≠ .panicked := by
  exact ⟨getLinks_size_zero_div.2.2.1 ⟨"2", "3", "", ""⟩ "u" [] 7 3
      (by decide) (by decide) (by decide),
    getLinks_size_zero_div.2.2.2 ⟨"", "", "4", "2"⟩ "u" [] 7 rfl⟩

/-- Witness for claim C3's amended theorem: page 2 of 5 items at size 2. -/
theorem getLinks_number_size_links_witness :
    ((paginationQueryParams.getLinks ⟨"2", "2", "", ""⟩ "/posts"
        [("page[number]", "2"), ("page[size]", "2")] 5).lookupLink "first")
      = some "/posts?page[number]=1&page[size]=2" ∧
    ((paginationQueryParams.getLinks ⟨"2", "2", "", ""⟩ "/posts"
        [("page[number]", "2"), ("page[size]", "2")] 5).lookupLink "next")
      = some "/posts?page[number]=3&page[size]=2" := by
  obtain ⟨m, hm, -, hfp, -, hnl⟩ :=
    getLinks_number_size_links ⟨"2", "2", "", ""⟩ "/posts"
      [("page[number]", "2"), ("page[size]", "2")] 5 2 2
      (by decide) (by decide) (by decide) (by decide)
  have hf := (hfp (by decide)).1
  have hx := (hnl (by decide)).1
  constructor
  · simp only [GoResult.lookupLink, hm, hf]
    decide
  · simp only [GoResult.lookupLink, hm, hx]
    decide

/-- Witness for claim C4's amended theorem: offset 3, limit 2 of 7 items. -/
theorem getLinks_offset_limit_links_witness :
    ((paginationQueryParams.getLinks ⟨"", "", "3", "2"⟩ "/posts"
        [("page[limit]", "2"), ("page[offset]", "3")] 7).lookupLink "prev")
      = some "/posts?page[limit]=2&page[offset]=1" ∧
    ((paginationQueryParams.getLinks ⟨"", "", "3", "2"⟩ "/posts"
        [("page[limit]", "2"), ("page[offset]", "3")] 7).lookupLink "last")
      = some "/posts?page[limit]=2&page[offset]=5" := by
  obtain ⟨m, hm, -, hfp, -, hnl⟩ :=
    getLinks_offset_limit_links ⟨"", "", "3", "2"⟩ "/posts"
      [("page[limit]", "2"), ("page[offset]", "3")] 7 3 2
      rfl (by decide) (by decide)
  have hf := (hfp (by decide)).2
  have hx := (hnl (by decide)).2
  constructor
  · simp only [GoResult.lookupLink, hm, hf]
    decide
  · simp only [GoResult.lookupLink, hm, hx]
    decide

/-- Under the spec-asserted append semantics each self-append doubles the
count. -/
theorem selfAppendLoop_spec_count (n : Nat) (e : httpError) :
    (selfAppendLoop httpError.AddHTTPErrorSpec n e).errorsCount
      = 2 ^ n * e.errorsCount := by
  induction n generalizing e with
  | zero => simp [selfAppendLoop]
  | succ k ih =>
    rw [selfAppendLoop, ih]
    cases e with
    | mk a b c d cnt =>
      simp [httpError.AddHTTPErrorSpec, httpError.errorsCount]
      ring

/-- Under the test-conforming append semantics each self-append adds one to
the count and one immediate child. -/
theorem selfAppendLoop_test_count (n : Nat) (e : httpError) :
    (selfAppendLoop httpError.AddHTTPError n e).errorsCount
        = e.errorsCount + n ∧
      (selfAppendLoop httpError.AddHTTPError n e).errors.length
        = e.errors.length + n := by
  induction n generalizing e with
  | zero => simp [selfAppendLoop]
  | succ k ih =>
    rw [selfAppendLoop]
    obtain ⟨ih1, ih2⟩ := ih (httpError.AddHTTPError e e)
    rw [ih1, ih2]
    cases e with
    | mk a b c d cnt =>
      simp [httpError.AddHTTPError, httpError.errorsCount, httpError.errors]
      omega

/-- Claim C1 counterexample: the spec-asserted semantics (a fresh error
counts 1; appending adds the child's aggregate count) fails the repository's
own test — after the twenty self-appends of src/error_test.go:14-16 the
count would be 2 ^ 20 = 1048576, while the test at error_test.go:18-19
requires exactly 20, equal to `len(errors)`.  Under the test-conforming
semantics, appending a subtree with aggregate count 2 advances the parent's
count by one (not by two), and a node's count is not 1 plus the sum of its
immediate children's counts. -/
theorem addHTTPError_count_counterexample :
    (selfAppendLoop httpError.AddHTTPErrorSpec 20
        (NewHTTPErrorSpec (some "hi") "hi" 0)).errorsCount = 1048576 ∧
    (1048576 : Nat) ≠ 20 ∧
    (selfAppendLoop httpError.AddHTTPError 20
        (NewHTTPError (some "hi") "hi" 0)).errorsCount = 20 ∧
    (selfAppendLoop httpError.AddHTTPError 20
        (NewHTTPError (some "hi") "hi" 0)).errors.length = 20 ∧
    c1subtree.errorsCount = 2 ∧
    ((NewHTTPError (some "hi") "hi" 0).AddHTTPError c1subtree).errorsCount
      = (NewHTTPError (some "hi") "hi" 0).errorsCount + 1 ∧
    (NewHTTPError (some "hi") "hi" 0).errorsCount + 1
      ≠ (NewHTTPError (some "hi") "hi" 0).errorsCount + c1subtree.errorsCount ∧
    c1subtree.errorsCount
      ≠ 1 + (c1subtree.errors.map httpError.errorsCount).sum := by
  refine ⟨?_, by decide, ?_, ?_, rfl, rfl, by decide, by decide⟩
  · rw [selfAppendLoop_spec_count]
    decide
  · rw [(selfAppendLoop_test_count 20 (NewHTTPError (some "hi") "hi" 0)).1]
    rfl
  · rw [(selfAppendLoop_test_count 20 (NewHTTPError (some "hi") "hi" 0)).2]
    rfl

/-- Claim C1 (amended): appending a structured error child — possibly a
whole subtree — stores it as exactly one additional immediate child and
advances the parent's `errorsCount` by exactly one, regardless of the
child's aggregate count; hence a node's count equals its number of immediate
children (`len(errors)`), as asserted by src/error_test.go, and the test's
scenario of twenty self-appends ends at `errorsCount = 20 = len(errors)`. -/
theorem addHTTPError_count_amended (p c : httpError)
    (h : p.errorsCount = p.errors.length) :
    (p.AddHTTPError c).errorsCount = p.errorsCount + 1 ∧
    (p.AddHTTPError c).errors.length = p.errors.length + 1 ∧
    (p.AddHTTPError c).errorsCount = (p.AddHTTPError c).errors.length ∧
    (selfAppendLoop httpError.AddHTTPError 20
        (NewHTTPError (some "hi") "hi" 0)).errorsCount = 20 ∧
    (selfAppendLoop httpError.AddHTTPError 20
        (NewHTTPError (some "hi") "hi" 0)).errors.length = 20 := by
  refine ⟨?_, ?_, ?_, ?_, ?_⟩
  · cases p with
    | mk a b c2 d cnt => simp [httpError.AddHTTPError, httpError.errorsCount]
  · cases p with
    | mk a b c2 d cnt => simp [httpError.AddHTTPError, httpError.errors]
  · cases p with
    | mk a b c2 d cnt =>
      simp only [httpError.AddHTTPError, httpError.errorsCount,
        httpError.errors] at h ⊢
      simp [h]
  · rw [(selfAppendLoop_test_count 20 (NewHTTPError (some "hi") "hi" 0)).1]
    rfl
  · rw [(selfAppendLoop_test_count 20 (NewHTTPError (some "hi") "hi" 0)).2]
    rfl

/-- Witness for claim C1's amended theorem at a concrete parent and child. -/
theorem addHTTPError_count_amended_witness :
    ((NewHTTPError (some "hi") "hi" 0).AddHTTPError c1subtree).errorsCount = 1 ∧
    ((NewHTTPError (some "hi") "hi" 0).AddHTTPError c1subtree).errors.length = 1 := by
  have h := addHTTPError_count_amended (NewHTTPError (some "hi") "hi" 0)
    c1subtree rfl
  exact ⟨h.1, h.2.1⟩

/-- Claim C2 counterexample: GET on the collection of a resource whose
backend implements only the four mandatory operations, with no pagination
parameters, fails with a 404 whose detail is "Resource does not implement
the FindAll interface" (src/api.go:474) — and that detail does not contain
the substring "does not implement FindAll" required by the claim (the
source wording has "the" in between). -/
theorem handleIndex_findall_detail_counterexample :
    (handleIndex crudOnlyBackend ⟨"", "", "", ""⟩ "/posts" []).response
      = .failure (.httpErr (NewHTTPError none
        "Resource does not implement the FindAll interface" 404)) ∧
    strContainsSub "does not implement FindAll"
      "Resource does not implement the FindAll interface" = false := by
  exact ⟨rfl, by decide⟩

/-- Claim C2 (amended): on a collection GET, if a complete valid pagination
shape is present and the backend lacks `PaginatedFindAll`, the handler fails
with the 404 error "Resource does not implement the PaginatedFindAll
interface" without invoking any fetch; if no valid pagination shape is
present and the backend lacks `FindAll`, it fails with the 404 error whose
detail is "Resource does not implement the FindAll interface" (containing
"does not implement the FindAll"); otherwise the corresponding fetch is
invoked and, when it — and in the paginated case the link computation —
succeeds, the handler responds 200 with the fetched objects. -/
theorem handleIndex_branches {α : Type} (res : Backend α)
    (p : paginationQueryParams) (url : String) (q : Values) :
    (p.isValid = true → res.paginatedFindAll = none →
      handleIndex res p url q = ⟨.failure (.httpErr (NewHTTPError none
        "Resource does not implement the PaginatedFindAll interface" 404)),
        false, false⟩) ∧
    (p.isValid = false → res.findAll = none →
      handleIndex res p url q = ⟨.failure (.httpErr (NewHTTPError none
        "Resource does not implement the FindAll interface" 404)),
        false, false⟩ ∧
      strContainsSub "does not implement the FindAll"
        "Resource does not implement the FindAll interface" = true) ∧
    (∀ source objs count links, p.isValid = true →
      res.paginatedFindAll = some source → source () = .ok (objs, count) →
      p.getLinks url q count = .ok links →
      handleIndex res p url q
        = ⟨.success (200, objs, some links), true, false⟩) ∧
    (∀ source objs, p.isValid = false → res.findAll = some source →
      source () = .ok objs →
      handleIndex res p url q = ⟨.success (200, objs, none), false, true⟩) := by
  refine ⟨?_, ?_, ?_, ?_⟩
  · intro hv hf
    simp [handleIndex, hv, hf]
  · intro hv hf
    refine ⟨?_, by decide⟩
    simp [handleIndex, hv, hf]
  · intro source objs count links hv hf hok hlinks
    simp [handleIndex, hv, hf, hok, hlinks]
  · intro source objs hv hf hok
    simp [handleIndex, hv, hf, hok]

/-- Witness for claim C2's amended theorem on concrete backends. -/
theorem handleIndex_branches_witness :
    handleIndex crudOnlyBackend ⟨"1", "2", "", ""⟩ "/posts" []
      = ⟨.failure (.httpErr (NewHTTPError none
        "Resource does not implement the PaginatedFindAll interface" 404)),
        false, false⟩ ∧
    handleIndex listBackend ⟨"", "", "", ""⟩ "/posts" []
      = ⟨.success (200, [()], none), false, true⟩ := by
  exact ⟨(handleIndex_branches crudOnlyBackend ⟨"1", "2", "", ""⟩ "/posts" []).1
      (by decide) rfl,
    (handleIndex_branches listBackend ⟨"", "", "", ""⟩ "/posts" []).2.2.2
      listFindAll [()] (by decide) rfl rfl⟩

/-- Claim C6: on a PATCH whose body decodes, after a successful fetch by id:
a missing `data` key, a non-object `data`, a missing `id` key or a missing
`type` key each fail with status 403 and the source's specific detail
("missing mandatory data key.", "data must contain an object.", "missing
mandatory id key.", "missing mandatory type key.") without invoking backend
update; otherwise the decoded fields are merged by the codec onto the slice
seeded with the fetched object, backend update is invoked with the merged
object, and the handler responds 204 with no body. -/
theorem handleUpdate_shape_checks {α : Type} (res : Backend α)
    (unm : Ctx → List α → Except String (List α)) (id : String) (ctx : Ctx)
    (obj : α) (hfind : res.findOne id = .ok obj) :
    (ctx.lookup "data" = none →
      handleUpdate res unm id (.ok ctx)
        = ⟨.failure (.httpErr (NewHTTPError (some "Forbidden")
            "missing mandatory data key." 403)), none⟩) ∧
    (∀ d, ctx.lookup "data" = some d → (∀ fields, d ≠ JSONVal.obj fields) →
      handleUpdate res unm id (.ok ctx)
        = ⟨.failure (.httpErr (NewHTTPError (some "Forbidden")
            "data must contain an object." 403)), none⟩) ∧
    (∀ check, ctx.lookup "data" = some (JSONVal.obj check) →
      check.lookup "id" = none →
      handleUpdate res unm id (.ok ctx)
        = ⟨.failure (.httpErr (NewHTTPError (some "Forbidden")
            "missing mandatory id key." 403)), none⟩) ∧
    (∀ check, ctx.lookup "data" = some (JSONVal.obj check) →
      (check.lookup "id").isSome → check.lookup "type" = none →
      handleUpdate res unm id (.ok ctx)
        = ⟨.failure (.httpErr (NewHTTPError (some "Forbidden")
            "missing mandatory type key." 403)), none⟩) ∧
    (∀ check merged, ctx.lookup "data" = some (JSONVal.obj check) →
      (check.lookup "id").isSome → (check.lookup "type").isSome →
      unm ctx [obj] = .ok [merged] → res.update merged = .ok () →
      handleUpdate res unm id (.ok ctx)
        = ⟨.success (204, none), some merged⟩) := by
  refine ⟨?_, ?_, ?_, ?_, ?_⟩
  · intro hd
    simp [handleUpdate, hfind, hd]
  · intro d hd hne
    cases d with
    | obj fields => exact absurd rfl (hne fields)
    | null => simp [handleUpdate, hfind, hd]
    | boolean b => simp [handleUpdate, hfind, hd]
    | num n => simp [handleUpdate, hfind, hd]
    | str t => simp [handleUpdate, hfind, hd]
    | arr xs => simp [handleUpdate, hfind, hd]
  · intro check hd hid
    simp [handleUpdate, hfind, hd, hid]
  · intro check hd hid hty
    obtain ⟨v, hv⟩ := Option.isSome_iff_exists.mp hid
    simp [handleUpdate, hfind, hd, hv, hty]
  · intro check merged hd hid hty hunm hupd
    obtain ⟨v, hv⟩ := Option.isSome_iff_exists.mp hid
    obtain ⟨w, hw⟩ := Option.isSome_iff_exists.mp hty
    simp [handleUpdate, hfind, hd, hv, hw, hunm, hupd]

/-- Witness for claim C6's theorem: a PATCH body lacking `id` under `data`
yields 403 "missing mandatory id key." and never calls update; a well-formed
body merges the fetched object (7, bumped to 8 by the codec) and responds
204 with no body. -/
theorem handleUpdate_shape_checks_witness :
    handleUpdate natBackend mergeCodec "1" (.ok noIdCtx)
      = ⟨.failure (.httpErr (NewHTTPError (some "Forbidden")
          "missing mandatory id key." 403)), none⟩ ∧
    handleUpdate natBackend mergeCodec "1" (.ok [("data", JSONVal.arr [])])
      = ⟨.failure (.httpErr (NewHTTPError (some "Forbidden")
          "data must contain an object." 403)), none⟩ ∧
    handleUpdate natBackend mergeCodec "1" (.ok goodCtx)
      = ⟨.success (204, none), some 8⟩ := by
  exact ⟨(handleUpdate_shape_checks natBackend mergeCodec "1" noIdCtx 7 rfl).2.2.1
      [("type", .str "posts")] rfl rfl,
    (handleUpdate_shape_checks natBackend mergeCodec "1"
        [("data", JSONVal.arr [])] 7 rfl).2.1
      (JSONVal.arr []) rfl (fun fields h => JSONVal.noConfusion h),
    (handleUpdate_shape_checks natBackend mergeCodec "1" goodCtx 7 rfl).2.2.2.2
      [("id", .str "1"), ("type", .str "posts")] 8 rfl rfl rfl rfl rfl⟩

/-- Claim C7: on a collection POST whose body decodes: if the codec yields
zero objects or more than one, the handler fails with "expected one object
in POST" without invoking backend create; if it yields exactly one object,
backend create is invoked with it to obtain a new id, the `Location` header
is set to `<prefix><name>/<newId>`, the created object is re-fetched by that
id, and the response is 201 with the freshly fetched object as body (not the
decoded input). -/
theorem handleCreate_single_object {α : Type} (res : Backend α)
    (unm : Ctx → List α → Except String (List α)) (pre resName : String)
    (ctx : Ctx) :
    (∀ l, unm ctx [] = .ok l → l.length ≠ 1 →
      handleCreate res unm pre resName (.ok ctx)
        = ⟨.failure (.plainErr "expected one object in POST"), none, none⟩) ∧
    (∀ newObj newId obj, unm ctx [] = .ok [newObj] →
      res.create newObj = .ok newId → res.findOne newId = .ok obj →
      handleCreate res unm pre resName (.ok ctx)
        = ⟨.success (201, some obj), some (pre ++ resName ++ "/" ++ newId),
           some newObj⟩) := by
  refine ⟨?_, ?_⟩
  · intro l hl hlen
    match l with
    | [] => simp [handleCreate, hl]
    | [a] => exact absurd rfl hlen
    | a :: b :: t => simp [handleCreate, hl]
  · intro newObj newId obj hl hc hf
    simp [handleCreate, hl, hc, hf]

/-- Witness for claim C7's theorem: a body decoding to the single object 5
is created under id "9", the `Location` header is "/posts/9", and the body
of the 201 response is the re-fetched object 7, not the decoded input 5; a
codec yielding zero objects fails without calling create. -/
theorem handleCreate_single_object_witness :
    handleCreate natBackend singletonCodec "/" "posts" (.ok [])
      = ⟨.success (201, some 7), some "/posts/9", some 5⟩ ∧
    handleCreate natBackend mergeCodec "/" "posts" (.ok [])
      = ⟨.failure (.plainErr "expected one object in POST"), none, none⟩ := by
  exact ⟨(handleCreate_single_object natBackend singletonCodec "/" "posts" []).2
      5 "9" 7 rfl rfl rfl,
    (handleCreate_single_object natBackend mergeCodec "/" "posts" []).1 []
      rfl (by decide)⟩

/-- Claim C8 counterexample: a prototype with the to-many mutation
capability declaring the relationship "author" — whose name is not its own
plural — gets no POST or DELETE route on its relationship endpoint, because
`addResource` guards those routes with `relation.Name ==
jsonapi.Pluralize(relation.Name)` (src/api.go:383), which the claim
omits. -/
theorem addResourceRoutes_tomany_counterexample :
    authorProto.editToMany = true ∧
    authorProto.references = some [⟨"author", "users"⟩] ∧
    samplePluralize "author" = "authors" ∧
    Route.mk "POST" "/Post/:id/relationships/author"
      ∉ addResourceRoutes samplePluralize idName "/" authorProto ∧
    Route.mk "DELETE" "/Post/:id/relationships/author"
      ∉ addResourceRoutes samplePluralize idName "/" authorProto ∧
    Route.mk "PATCH" "/Post/:id/relationships/author"
      ∈ addResourceRoutes samplePluralize idName "/" authorProto := by
  decide

/-- Claim C8 (amended): for every resource whose (pointer) prototype
implements the to-many mutation capability, the POST and DELETE routes on
`<prefix><name>/:id/relationships/<rel>` are registered for each declared
relationship whose name is its own plural (`relation.Name ==
Pluralize(relation.Name)`, the guard of src/api.go:383); singular-named
relationships receive no such routes. -/
theorem addResourceRoutes_tomany (pluralize jsonify : String → String)
    (pre : String) (proto : Prototype) (rels : List Reference)
    (rel : Reference) (hcap : proto.editToMany = true)
    (hrefs : proto.references = some rels) (hmem : rel ∈ rels)
    (hplural : rel.name = pluralize rel.name) :
    Route.mk "POST" (pre ++ jsonify (pluralize proto.typeName)
        ++ "/:id/relationships/" ++ rel.name)
      ∈ addResourceRoutes pluralize jsonify pre proto ∧
    Route.mk "DELETE" (pre ++ jsonify (pluralize proto.typeName)
        ++ "/:id/relationships/" ++ rel.name)
      ∈ addResourceRoutes pluralize jsonify pre proto := by
  have hcond : (proto.editToMany && (rel.name == pluralize rel.name)) = true := by
    rw [hcap, ← hplural]
    simp
  constructor <;>
  · simp only [addResourceRoutes, hrefs, List.mem_append]
    refine Or.inl (Or.inr ?_)
    rw [List.mem_flatMap]
    exact ⟨rel, hmem, by simp [hcond]⟩

/-- Witness for claim C8's amended theorem: a plural-named relationship of a
to-many-editable prototype receives both routes. -/
theorem addResourceRoutes_tomany_witness :
    Route.mk "POST" ("/" ++ idName (samplePluralize "Post")
        ++ "/:id/relationships/" ++ "comments")
      ∈ addResourceRoutes samplePluralize idName "/" commentsProto ∧
    Route.mk "DELETE" ("/" ++ idName (samplePluralize "Post")
        ++ "/:id/relationships/" ++ "comments")
      ∈ addResourceRoutes samplePluralize idName "/" commentsProto := by
  exact addResourceRoutes_tomany samplePluralize idName "/" commentsProto
    [⟨"comments", "comments"⟩] ⟨"comments", "comments"⟩ rfl rfl
    (List.mem_singleton_self _) rfl

/-- In a well-formed header map (every header carries at least one value), a
successful lookup never yields the empty value list. -/
theorem lookupHeader_wf (headers : Headers) (k : String) (vs : List String)
    (hwf : ∀ kv ∈ headers, kv.2 ≠ []) (h : lookupHeader headers k = some vs) :
    vs ≠ [] := by
  induction headers with
  | nil => simp [lookupHeader] at h
  | cons kv rest ih =>
    obtain ⟨k1, vs1⟩ := kv
    simp only [lookupHeader] at h
    by_cases he : (k1 == k) = true
    · rw [if_pos he] at h
      cases h
      exact hwf (k1, vs) (by simp)
    · rw [if_neg he] at h
      exact ih (fun kv hm => hwf kv (by simp [hm])) h

/-- Claim C9: marshaler selection per request follows exactly the procedure
the spec states — with an `Accept` header present, negotiate among the
configured content types with the JSON:API MIME type as default and use the
matching marshaler; else with a `Content-Type` header, use its first value
as the lookup key; whenever neither path resolves a marshaler, the built-in
JSON marshaler bound to `application/vnd.api+json` — so, for any request
whose present headers carry at least one value, selection always returns
normally with a (non-nil) marshaler. -/
theorem selectContentMarshaler_resolves
    (negotiate : List String → String → String) (headers : Headers)
    (marshalers : List (String × Marshaler))
    (hwf : ∀ kv ∈ headers, kv.2 ≠ []) :
    selectContentMarshaler negotiate headers marshalers
      = .ok (selectContentMarshalerSpec negotiate headers marshalers) := by
  by_cases hacc : (lookupHeader headers "Accept").isSome
  · simp only [selectContentMarshaler, selectContentMarshalerSpec, hacc,
      if_true]
    cases List.lookup
        (negotiate (marshalers.map (fun kv => kv.1)) "application/vnd.api+json")
        marshalers <;>
      simp
  · simp only [selectContentMarshaler, selectContentMarshalerSpec,
      Bool.not_eq_true, hacc] at *
    rw [if_neg (by simp [hacc]), if_neg (by simp [hacc])]
    cases hct : lookupHeader headers "Content-Type" with
    | none => simp
    | some vs =>
      cases vs with
      | nil => exact absurd rfl (lookupHeader_wf headers "Content-Type" [] hwf hct)
      | cons ct rest =>
        cases hl : List.lookup ct marshalers <;> simp [hl]

/-- Witness for claim C9's theorem: an `Accept` request against the single
configured marshaler resolves to that marshaler; with no headers and no
configured marshalers, the built-in JSON marshaler is selected. -/
theorem selectContentMarshaler_resolves_witness :
    selectContentMarshaler defaultNegotiate
        [("Accept", ["application/vnd.api+json"])]
        [("application/vnd.api+json", Marshaler.custom 0)]
      = .ok (.custom 0, "application/vnd.api+json") ∧
    selectContentMarshaler defaultNegotiate [] []
      = .ok (.jsonMarshaler, "application/vnd.api+json") := by
  have h1 := selectContentMarshaler_resolves defaultNegotiate
    [("Accept", ["application/vnd.api+json"])]
    [("application/vnd.api+json", Marshaler.custom 0)] (by decide)
  have h2 := selectContentMarshaler_resolves defaultNegotiate [] []
    (by simp)
  exact ⟨h1.trans (by decide), h2.trans (by decide)⟩
